import Mathlib

/-
Shallow embedding of the faust-prometheus repository
(faustprometheus/monitor.py and faustprometheus/config.py).

The monitor translates Faust lifecycle callbacks into mutations of
prometheus_client metric objects.  We embed the metric state touched by the
handlers as a record of numeric series (plain series as Int, labelled series
as total functions from the label tuple to Int, defaulting to 0 as
prometheus_client series do on first use), and each handler as a pure state
transformer mirroring the Python method body.  Label-value computations
(f-strings and the _normalize / _stream_label pipeline) are embedded as
functions on lists of characters.
-/

/-- Characters matched by the regex RE_NORMALIZE = re.compile(r'[\<\>:\s]+')
in monitor.py (the ASCII whitespace class: space, tab, newline, carriage
return, vertical tab, form feed, plus the three listed punctuation chars). -/
def isNormChar (c : Char) : Bool :=
  c == '<' || c == '>' || c == ':' || c == ' ' || c == '\t' || c == '\n' ||
    c == '\r' || c == '\x0b' || c == '\x0c'

/-- re.sub of the pattern RE_NORMALIZE with the substitution '_': each maximal
run of characters in the class is replaced by a single underscore.  The Bool
argument records whether we are currently inside such a run. -/
def subNormRuns : List Char → Bool → List Char
  | [], _ => []
  | c :: cs, inRun =>
    if isNormChar c then
      if inRun then subNormRuns cs true else '_' :: subNormRuns cs true
    else
      c :: subNormRuns cs false

/-- PrometheusMonitor._normalize: RE_NORMALIZE.sub('_', name). -/
def pyNormalize (s : List Char) : List Char := subNormRuns s false

/-- The character set of the string 'Stream:', as used by
str.lstrip('Stream:') in PrometheusMonitor._stream_label. -/
def streamStripChars (c : Char) : Bool :=
  c == 'S' || c == 't' || c == 'r' || c == 'e' || c == 'a' || c == 'm' || c == ':'

/-- str.strip('_'): drop leading and trailing underscores. -/
def stripUnderscore (s : List Char) : List Char :=
  ((s.dropWhile (fun x => x == '_')).reverse.dropWhile (fun x => x == '_')).reverse

/-- str.lower restricted to ASCII (all label inputs in this development are
ASCII, where Python str.lower agrees with Char.toLower). -/
def pyLower (s : List Char) : List Char := s.map Char.toLower

/-- PrometheusMonitor._stream_label:
self._normalize(stream.shortlabel.lstrip('Stream:')).strip('_').lower(). -/
def streamLabelOf (shortlabel : List Char) : List Char :=
  pyLower (stripUnderscore (pyNormalize (shortlabel.dropWhile streamStripChars)))

/-- The stream label value passed by on_stream_event_in:
f'stream.{self._stream_label(stream)}.events'. -/
def streamEventLabel (shortlabel : List Char) : List Char :=
  ("stream.".toList) ++ streamLabelOf shortlabel ++ (".events".toList)

/-- The topic label value passed by on_send_initiated: f'topic.{topic}'. -/
def sendInitiatedTopicLabel (topic : List Char) : List Char :=
  ("topic.".toList) ++ topic

/-- The table label value passed by on_table_get / on_table_set /
on_table_del: f'table.{table.name}'. -/
def tableOpLabel (tableName : List Char) : List Char :=
  ("table.".toList) ++ tableName

/-- The topic label value passed by on_message_in: tp.topic, unmodified. -/
def messageInTopicLabel (topic : List Char) : List Char := topic

/-- The metric label value passed by count: metric_name, unmodified. -/
def countMetricLabel (metricName : List Char) : List Char := metricName

/-- The normalization described by the specification, for comparison with the
label values computed by the source: collapse every run of whitespace or of
the characters <, >, : to a single underscore, trim leading and trailing
underscores, and lower-case the result. -/
def specNormalize (s : List Char) : List Char :=
  pyLower (stripUnderscore (pyNormalize s))

/-- The prometheus metric series mutated by the handlers under verification.
Plain (unlabelled) series are a single Int; labelled series are total
functions from the label tuple, defaulting to 0. -/
structure MonitorState where
  messages_received : Int
  active_messages : Int
  messages_received_per_topics : String → Int
  messages_received_per_topics_partition : String × Int → Int
  total_rebalances : Int
  total_rebalances_recovering : Int
  count_metrics_by_name : String → Int
  http_status_codes : Int → Int
  topic_partition_offset_commited : String × Int → Int

/-- A freshly constructed monitor: every series at its initial value 0. -/
def initialMonitor : MonitorState where
  messages_received := 0
  active_messages := 0
  messages_received_per_topics := fun _ => 0
  messages_received_per_topics_partition := fun _ => 0
  total_rebalances := 0
  total_rebalances_recovering := 0
  count_metrics_by_name := fun _ => 0
  http_status_codes := fun _ => 0
  topic_partition_offset_commited := fun _ => 0

/-- PrometheusMonitor.on_message_in: messages_received.inc(),
active_messages.inc(), messages_received_per_topics.labels(topic).inc(),
messages_received_per_topics_partition.labels(topic, partition).set(offset). -/
def on_message_in (s : MonitorState) (topic : String) (pttn : Int)
    (offset : Int) : MonitorState :=
  { s with
    messages_received := s.messages_received + 1
    active_messages := s.active_messages + 1
    messages_received_per_topics := fun t =>
      if t = topic then s.messages_received_per_topics t + 1
      else s.messages_received_per_topics t
    messages_received_per_topics_partition := fun x =>
      if x = (topic, pttn) then offset
      else s.messages_received_per_topics_partition x }

/-- PrometheusMonitor.on_message_out: active_messages.dec(). -/
def on_message_out (s : MonitorState) : MonitorState :=
  { s with active_messages := s.active_messages - 1 }

/-- PrometheusMonitor.on_rebalance_start: total_rebalances.inc(). -/
def on_rebalance_start (s : MonitorState) : MonitorState :=
  { s with total_rebalances := s.total_rebalances + 1 }

/-- PrometheusMonitor.on_rebalance_return: total_rebalances.dec(),
total_rebalances_recovering.inc() (the latency observation touches only a
histogram not involved in any claim). -/
def on_rebalance_return (s : MonitorState) : MonitorState :=
  { s with
    total_rebalances := s.total_rebalances - 1
    total_rebalances_recovering := s.total_rebalances_recovering + 1 }

/-- PrometheusMonitor.on_rebalance_end: total_rebalances_recovering.dec(). -/
def on_rebalance_end (s : MonitorState) : MonitorState :=
  { s with total_rebalances_recovering := s.total_rebalances_recovering - 1 }

/-- PrometheusMonitor.count: count_metrics_by_name.labels(metric).inc(n). -/
def count (s : MonitorState) (metricName : String) (n : Int) : MonitorState :=
  { s with count_metrics_by_name := fun m =>
      if m = metricName then s.count_metrics_by_name m + n
      else s.count_metrics_by_name m }

/-- A sequence of count calls for the same metric name, applied in order. -/
def countSeq (s : MonitorState) (metricName : String) (ns : List Int) :
    MonitorState :=
  ns.foldl (fun st n => count st metricName n) s

/-- One iteration of the on_tp_commit loop:
topic_partition_offset_commited.labels(topic, partition).set(offset). -/
def setCommittedOffset (s : MonitorState) (tp : String × Int) (offset : Int) :
    MonitorState :=
  { s with topic_partition_offset_commited := fun x =>
      if x = tp then offset else s.topic_partition_offset_commited x }

/-- PrometheusMonitor.on_tp_commit: iterate over the (topic, partition) →
offset mapping (embedded as an association list with distinct keys, as a
Python dict yields) and set each gauge series. -/
def on_tp_commit (s : MonitorState)
    (tpOffsets : List ((String × Int) × Int)) : MonitorState :=
  tpOffsets.foldl (fun st p => setCommittedOffset st p.1 p.2) s

/-- Modelled from the spec: the faust base class Monitor.on_web_request_end
(not part of this repository's src/) stores the response's status code in
state, substituting the fallback 500 when the response is None; the
repository handler then reads int(state['status_code']). -/
def baseWebStatusCode (response : Option Int) : Int :=
  match response with
  | some code => code
  | none => 500

/-- PrometheusMonitor.on_web_request_end: after the super() call has set
state['status_code'], increment http_status_codes.labels(status_code). -/
def on_web_request_end (s : MonitorState) (response : Option Int) :
    MonitorState :=
  { s with http_status_codes := fun c =>
      if c = baseWebStatusCode response then s.http_status_codes c + 1
      else s.http_status_codes c }

/-- The metric names registered by _initialize_metrics, in registration
order (monitor.py lines 86-267). -/
def fixedMetricNames : List String :=
  ["messages_received", "active_messages", "messages_received_per_topic",
   "messages_received_per_topics_partition", "events_runtime_ms",
   "total_events", "total_active_events", "total_events_per_stream",
   "table_operations", "topic_messages_sent", "total_sent_messages",
   "producer_send_latency", "total_error_messages_sent",
   "producer_error_send_latency", "assignment_operations", "assign_latency",
   "total_rebalances", "total_rebalances_recovering",
   "rebalance_done_consumer_latency", "rebalance_done_latency",
   "metrics_by_name", "http_status_codes", "http_latency",
   "topic_partition_end_offset", "topic_partition_offset_commited",
   "consumer_commit_latency"]

/-- PrometheusMonitor._python_gc_metrics: snapshot the collectors currently
in the process-wide registry (list(REGISTRY._names_to_collectors.values()))
and unregister each one; REGISTRY.unregister removes every entry for the
given collector. -/
def unregisterAll (reg : List String) : List String :=
  reg.foldl (fun r c => r.filter (fun x => !(x == c))) reg

/-- faustprometheus/config.py PrometheusMonitorConfig instances: attributes
assigned in its body (the field nspace embeds the attribute written as
the Python keyword argument for the metric name prefix). -/
structure PrometheusMonitorConfig where
  nspace : String
  subsystem : String
  labels : List String
  path : String

/-- What self.pm_config can refer to after PrometheusMonitor.__init__ lines
59-62: the class object itself (when the pm_config argument is None) or a
constructed instance. -/
inductive PmConfigRef where
  | classObject
  | inst (cfg : PrometheusMonitorConfig)

/-- Python attribute lookup for pm_config.namespace: the class object carries
no such attribute (config.py sets it only inside its constructor on
instances), so the lookup fails (None models AttributeError being raised). -/
def pmConfigNamespaceAttr : PmConfigRef → Option String
  | PmConfigRef.classObject => none
  | PmConfigRef.inst c => some c.nspace

/-- Python attribute lookup for pm_config.path, likewise absent on the class
object. -/
def pmConfigPathAttr : PmConfigRef → Option String
  | PmConfigRef.classObject => none
  | PmConfigRef.inst c => some c.path

/-- Exceptions escaping PrometheusMonitor.__init__. -/
inductive InitError where
  | improperlyConfigured
  | attributeError

/-- Outcome of constructing a PrometheusMonitor: the exception or the bound
config, the final contents of the process-wide registry, and the path of the
installed export endpoint if construction reached expose_metrics. -/
structure InitResult where
  outcome : Except InitError PmConfigRef
  registry : List String
  endpointPath : Option String

/-- PrometheusMonitor._initialize_metrics: the first metric constructor
evaluates self.pm_config.namespace; on the class object this raises
AttributeError before anything is registered, otherwise the fixed metric
set is appended to the registry in order. -/
def initMetricsRegistry (cfg : PmConfigRef) (reg : List String) :
    Except InitError (List String) :=
  match pmConfigNamespaceAttr cfg with
  | none => Except.error InitError.attributeError
  | some _ => Except.ok (reg ++ fixedMetricNames)

/-- PrometheusMonitor.expose_metrics: registers a page at
self.pm_config.path. -/
def exposeMetricsEndpoint (cfg : PmConfigRef) : Except InitError String :=
  match pmConfigPathAttr cfg with
  | none => Except.error InitError.attributeError
  | some p => Except.ok p

/-- PrometheusMonitor.__init__, in source order: bind self.pm_config (the
class object when the argument is None), raise ImproperlyConfigured if
prometheus_client failed to import (before touching the registry), then
_python_gc_metrics, _initialize_metrics, expose_metrics. -/
def monitorInit (hasPrometheusClient : Bool)
    (pmConfigArg : Option PrometheusMonitorConfig)
    (reg : List String) : InitResult :=
  let cfg : PmConfigRef :=
    match pmConfigArg with
    | none => PmConfigRef.classObject
    | some c => PmConfigRef.inst c
  if hasPrometheusClient then
    let reg1 := unregisterAll reg
    match initMetricsRegistry cfg reg1 with
    | Except.error e =>
      { outcome := Except.error e, registry := reg1, endpointPath := none }
    | Except.ok reg2 =>
      match exposeMetricsEndpoint cfg with
      | Except.error e =>
        { outcome := Except.error e, registry := reg2, endpointPath := none }
      | Except.ok p =>
        { outcome := Except.ok cfg, registry := reg2, endpointPath := some p }
  else
    { outcome := Except.error InitError.improperlyConfigured,
      registry := reg, endpointPath := none }

/-- Claim C1: on a freshly constructed monitor, on_message_in(t, p, o)
followed by on_message_out leaves messages_received = 1, active_messages = 0,
messages_received_per_topic at topic t equal to 1, and the
topic/partition gauge at (t, p) equal to o. -/
theorem message_in_out_scenario (t : String) (p o : Int) :
    (on_message_out (on_message_in initialMonitor t p o)).messages_received = 1 ∧
    (on_message_out (on_message_in initialMonitor t p o)).active_messages = 0 ∧
    (on_message_out (on_message_in initialMonitor t p o)).messages_received_per_topics t = 1 ∧
    (on_message_out (on_message_in initialMonitor t p o)).messages_received_per_topics_partition (t, p) = o := by
  refine ⟨?_, ?_, ?_, ?_⟩ <;>
    simp [on_message_in, on_message_out, initialMonitor]

/-- Claim C3: on_web_request_end with a missing response does not fail and
increments http_status_codes at the fallback label 500, behaving exactly as
it does for an actual response with status 500. -/
theorem web_request_end_none_fallback (s : MonitorState) :
    on_web_request_end s none = on_web_request_end s (some 500) ∧
    (on_web_request_end s none).http_status_codes 500 =
      s.http_status_codes 500 + 1 := by
  constructor
  · rfl
  · simp [on_web_request_end, baseWebStatusCode]

/-- Claim C5: on_rebalance_start increments total_rebalances,
on_rebalance_return decrements it and increments
total_rebalances_recovering, on_rebalance_end decrements the latter; hence
a complete start, return, end sequence restores both gauges. -/
theorem rebalance_gauges_inverse (s : MonitorState) :
    (on_rebalance_start s).total_rebalances = s.total_rebalances + 1 ∧
    (on_rebalance_start s).total_rebalances_recovering = s.total_rebalances_recovering ∧
    (on_rebalance_return s).total_rebalances = s.total_rebalances - 1 ∧
    (on_rebalance_return s).total_rebalances_recovering = s.total_rebalances_recovering + 1 ∧
    (on_rebalance_end s).total_rebalances_recovering = s.total_rebalances_recovering - 1 ∧
    (on_rebalance_end s).total_rebalances = s.total_rebalances ∧
    (on_rebalance_end (on_rebalance_return (on_rebalance_start s))).total_rebalances = s.total_rebalances ∧
    (on_rebalance_end (on_rebalance_return (on_rebalance_start s))).total_rebalances_recovering = s.total_rebalances_recovering := by
  refine ⟨rfl, rfl, rfl, rfl, rfl, rfl, ?_, ?_⟩ <;>
    simp [on_rebalance_start, on_rebalance_return, on_rebalance_end]

theorem subNormRuns_no_norm (s : List Char) :
    ∀ (b : Bool) (c : Char), c ∈ subNormRuns s b → isNormChar c = false := by
  induction s with
  | nil =>
    intro b c h
    simp [subNormRuns] at h
  | cons a t ih =>
    intro b c h
    by_cases ha : isNormChar a = true
    · cases b with
      | true =>
        simp only [subNormRuns, ha, if_true] at h
        exact ih true c h
      | false =>
        simp only [subNormRuns, ha, if_true] at h
        rcases List.mem_cons.mp h with h1 | h2
        · subst h1; decide
        · exact ih true c h2
    · have ha2 : isNormChar a = false := by simpa using ha
      simp only [subNormRuns, ha2, Bool.false_eq_true, if_false] at h
      rcases List.mem_cons.mp h with h1 | h2
      · subst h1; exact ha2
      · exact ih false c h2

theorem subNormRuns_fixed (s : List Char) :
    ∀ b : Bool, (∀ c ∈ s, isNormChar c = false) → subNormRuns s b = s := by
  induction s with
  | nil => intro b _; rfl
  | cons a t ih =>
    intro b h
    have ha : isNormChar a = false := h a (List.mem_cons_self a t)
    simp only [subNormRuns, ha, Bool.false_eq_true, if_false]
    rw [ih false (fun c hc => h c (List.mem_cons_of_mem a hc))]

theorem pyNormalize_not_norm (s : List Char) :
    ∀ c ∈ pyNormalize s, isNormChar c = false :=
  fun c hc => subNormRuns_no_norm s false c hc

theorem pyNormalize_idem (s : List Char) :
    pyNormalize (pyNormalize s) = pyNormalize s :=
  subNormRuns_fixed (pyNormalize s) false (pyNormalize_not_norm s)

/-- Claim C7: the label-normalization function is idempotent, and the stream
label pipeline (lstrip, normalize, strip underscores, lower-case) maps the
shortlabel Stream: Topic: foo to topic_foo. -/
theorem normalize_idempotent_and_stream_pipeline :
    (∀ s : List Char, pyNormalize (pyNormalize s) = pyNormalize s) ∧
    streamLabelOf (("Stream: Topic: foo").toList) = ("topic_foo").toList := by
  constructor
  · exact pyNormalize_idem
  · decide

theorem mem_of_mem_dropWhileChar {p : Char → Bool} {c : Char} :
    ∀ {l : List Char}, c ∈ l.dropWhile p → c ∈ l := by
  intro l
  induction l with
  | nil => intro h; simp at h
  | cons a t ih =>
    intro h
    by_cases hp : p a = true
    · simp only [List.dropWhile_cons, hp, if_true] at h
      exact List.mem_cons_of_mem a (ih h)
    · simp only [List.dropWhile_cons, hp, Bool.false_eq_true, if_false] at h
      exact h

theorem mem_of_mem_stripUnderscore {c : Char} {l : List Char}
    (h : c ∈ stripUnderscore l) : c ∈ l := by
  unfold stripUnderscore at h
  rw [List.mem_reverse] at h
  have h2 := mem_of_mem_dropWhileChar h
  rw [List.mem_reverse] at h2
  exact mem_of_mem_dropWhileChar h2

/-- Claim C2 counterexample: for the input string A, the label actually
passed to the metric by on_send_initiated (and likewise by on_message_in and
the table handlers) differs from the normalization of that string described
by the spec (which would be the single character a). -/
theorem labels_not_normalized_counterexample :
    (sendInitiatedTopicLabel (("A").toList) == specNormalize (("A").toList)) = false ∧
    (messageInTopicLabel (("A").toList) == specNormalize (("A").toList)) = false ∧
    (tableOpLabel (("A").toList) == specNormalize (("A").toList)) = false ∧
    (countMetricLabel (("A").toList) == specNormalize (("A").toList)) = false := by
  decide

/-- Claim C2 amended: only the stream label of on_stream_event_in goes
through the normalization pipeline (after lstrip of the Stream: characters,
wrapped as stream.NAME.events); the topic label of on_send_initiated is the
raw topic behind a topic. prefix, the table label is the raw table name
behind a table. prefix, and on_message_in and count pass their strings
through unmodified.  The pre-lowercase stream label contains no character of
the normalized class. -/
theorem label_normalization_amended :
    (∀ t, sendInitiatedTopicLabel t = (("topic.").toList) ++ t) ∧
    (∀ n, tableOpLabel n = (("table.").toList) ++ n) ∧
    (∀ t, messageInTopicLabel t = t) ∧
    (∀ m, countMetricLabel m = m) ∧
    (∀ sl, streamEventLabel sl =
      (("stream.").toList) ++
        pyLower (stripUnderscore (pyNormalize (sl.dropWhile streamStripChars))) ++
        ((".events").toList)) ∧
    (∀ (sl : List Char) (c : Char),
      c ∈ stripUnderscore (pyNormalize (sl.dropWhile streamStripChars)) →
      isNormChar c = false) := by
  refine ⟨fun t => rfl, fun n => rfl, fun t => rfl, fun m => rfl,
    fun sl => rfl, ?_⟩
  intro sl c hc
  exact pyNormalize_not_norm _ c (mem_of_mem_stripUnderscore hc)

theorem label_normalization_amended_witness :
    sendInitiatedTopicLabel (("a").toList) = ("topic.a").toList ∧
    isNormChar 'x' = false := by
  constructor
  · exact (label_normalization_amended.1 (("a").toList)).trans (by decide)
  · exact label_normalization_amended.2.2.2.2.2 (("Stream: x").toList) 'x'
      (by decide)

theorem countSeq_value (metricName : String) :
    ∀ (ns : List Int) (s : MonitorState),
      (countSeq s metricName ns).count_metrics_by_name metricName =
      s.count_metrics_by_name metricName + ns.sum := by
  intro ns
  induction ns with
  | nil => intro s; simp [countSeq]
  | cons n t ih =>
    intro s
    have step : countSeq s metricName (n :: t) =
        countSeq (count s metricName n) metricName t := rfl
    rw [step, ih]
    simp [count]
    ring

/-- Claim C8: a sequence of count calls with the same metric name and
non-negative increments leaves the metrics_by_name series at the sum of the
increments, independently of the order of the calls, and the series is
monotonically non-decreasing along the sequence. -/
theorem count_sum_order_independent (metricName : String) (ns : List Int)
    (h : ∀ n ∈ ns, 0 ≤ n) :
    (countSeq initialMonitor metricName ns).count_metrics_by_name metricName = ns.sum ∧
    (∀ ms : List Int, ns.Perm ms →
      (countSeq initialMonitor metricName ms).count_metrics_by_name metricName =
      (countSeq initialMonitor metricName ns).count_metrics_by_name metricName) ∧
    (∀ p q : List Int, ns = p ++ q →
      (countSeq initialMonitor metricName p).count_metrics_by_name metricName ≤
      (countSeq initialMonitor metricName ns).count_metrics_by_name metricName) := by
  refine ⟨?_, ?_, ?_⟩
  · rw [countSeq_value]; simp [initialMonitor]
  · intro ms hp
    rw [countSeq_value, countSeq_value, hp.sum_eq]
  · intro p q hpq
    subst hpq
    rw [countSeq_value, countSeq_value]
    have hq : 0 ≤ q.sum :=
      List.sum_nonneg (fun n hn => h n (List.mem_append_right p hn))
    simp [List.sum_append, initialMonitor]
    linarith

theorem count_sum_order_independent_witness :
    (countSeq initialMonitor ("metric_name") [2, 3]).count_metrics_by_name ("metric_name") =
      ([2, 3] : List Int).sum :=
  (count_sum_order_independent ("metric_name") [2, 3] (by decide)).1

theorem on_tp_commit_notMem (tp : String × Int) :
    ∀ (l : List ((String × Int) × Int)) (s : MonitorState),
      tp ∉ l.map Prod.fst →
      (on_tp_commit s l).topic_partition_offset_commited tp =
        s.topic_partition_offset_commited tp := by
  intro l
  induction l with
  | nil => intro s _; rfl
  | cons kv rest ih =>
    intro s h
    rw [List.map_cons] at h
    have h1 : ¬(tp = kv.1) := fun he => h (he ▸ List.mem_cons_self _ _)
    have h2 : tp ∉ rest.map Prod.fst := fun hm => h (List.mem_cons_of_mem _ hm)
    have step : on_tp_commit s (kv :: rest) =
        on_tp_commit (setCommittedOffset s kv.1 kv.2) rest := rfl
    rw [step, ih _ h2]
    simp [setCommittedOffset, h1]

theorem on_tp_commit_mem (tp : String × Int) (o : Int) :
    ∀ (l : List ((String × Int) × Int)) (s : MonitorState),
      (l.map Prod.fst).Nodup → (tp, o) ∈ l →
      (on_tp_commit s l).topic_partition_offset_commited tp = o := by
  intro l
  induction l with
  | nil => intro s _ hmem; simp at hmem
  | cons kv rest ih =>
    intro s hnd hmem
    have step : on_tp_commit s (kv :: rest) =
        on_tp_commit (setCommittedOffset s kv.1 kv.2) rest := rfl
    rw [List.map_cons, List.nodup_cons] at hnd
    rcases List.mem_cons.mp hmem with h1 | h2
    · subst h1
      rw [step, on_tp_commit_notMem tp rest _ hnd.1]
      simp [setCommittedOffset]
    · rw [step]
      exact ih _ hnd.2 h2

theorem on_tp_commit_perm (s : MonitorState)
    (l l2 : List ((String × Int) × Int))
    (hnd : (l.map Prod.fst).Nodup) (hp : l.Perm l2) (tp : String × Int) :
    (on_tp_commit s l).topic_partition_offset_commited tp =
    (on_tp_commit s l2).topic_partition_offset_commited tp := by
  by_cases hmem : tp ∈ l.map Prod.fst
  · rcases List.mem_map.mp hmem with ⟨pr, hpr, hfst⟩
    have heq : (tp, pr.2) = pr := by rw [← hfst]
    have hmem1 : (tp, pr.2) ∈ l := by rw [heq]; exact hpr
    have hmem2 : (tp, pr.2) ∈ l2 := hp.mem_iff.mp hmem1
    have hnd2 : (l2.map Prod.fst).Nodup := ((hp.map Prod.fst).nodup_iff).mp hnd
    rw [on_tp_commit_mem tp pr.2 l s hnd hmem1,
      on_tp_commit_mem tp pr.2 l2 s hnd2 hmem2]
  · have hmem2 : tp ∉ l2.map Prod.fst :=
      fun hm => hmem ((hp.map Prod.fst).mem_iff.mpr hm)
    rw [on_tp_commit_notMem tp l s hmem, on_tp_commit_notMem tp l2 s hmem2]

/-- Claim C4: on_tp_commit sets the committed-offset gauge of every
(topic, partition) key of the mapping to its offset, and the resulting
per-series values do not depend on the iteration order of the mapping. -/
theorem tp_commit_spec (s : MonitorState) (l : List ((String × Int) × Int))
    (hnd : (l.map Prod.fst).Nodup) :
    (∀ (tp : String × Int) (o : Int), (tp, o) ∈ l →
      (on_tp_commit s l).topic_partition_offset_commited tp = o) ∧
    (∀ l2 : List ((String × Int) × Int), l.Perm l2 → ∀ tp : String × Int,
      (on_tp_commit s l).topic_partition_offset_commited tp =
      (on_tp_commit s l2).topic_partition_offset_commited tp) := by
  constructor
  · intro tp o hmem
    exact on_tp_commit_mem tp o l s hnd hmem
  · intro l2 hp tp
    exact on_tp_commit_perm s l l2 hnd hp tp

theorem tp_commit_spec_witness :
    (on_tp_commit initialMonitor
      [((("foo"), 0), 1001), ((("foo"), 1), 2002), ((("bar"), 3), 3003)]).topic_partition_offset_commited (("foo"), 0) = 1001 ∧
    (on_tp_commit initialMonitor
      [((("foo"), 0), 1001), ((("foo"), 1), 2002), ((("bar"), 3), 3003)]).topic_partition_offset_commited (("foo"), 1) = 2002 ∧
    (on_tp_commit initialMonitor
      [((("foo"), 0), 1001), ((("foo"), 1), 2002), ((("bar"), 3), 3003)]).topic_partition_offset_commited (("bar"), 3) = 3003 := by
  refine ⟨?_, ?_, ?_⟩
  · exact (tp_commit_spec initialMonitor _ (by decide)).1 (("foo"), 0) 1001
      (by decide)
  · exact (tp_commit_spec initialMonitor _ (by decide)).1 (("foo"), 1) 2002
      (by decide)
  · exact (tp_commit_spec initialMonitor _ (by decide)).1 (("bar"), 3) 3003
      (by decide)

theorem foldl_filter_eq_nil :
    ∀ (l r : List String), (∀ x ∈ r, x ∈ l) →
      l.foldl (fun r c => r.filter (fun x => !(x == c))) r = [] := by
  intro l
  induction l with
  | nil =>
    intro r h
    cases r with
    | nil => rfl
    | cons a t => exact absurd (h a (List.mem_cons_self a t)) (List.not_mem_nil a)
  | cons c l ih =>
    intro r h
    rw [List.foldl_cons]
    apply ih
    intro x hx
    rw [List.mem_filter] at hx
    rcases hx with ⟨hxr, hne⟩
    have hxc : ¬(x = c) := by simpa using hne
    rcases List.mem_cons.mp (h x hxr) with h1 | h2
    · exact absurd h1 hxc
    · exact h2

theorem unregisterAll_eq_nil (reg : List String) : unregisterAll reg = [] :=
  foldl_filter_eq_nil reg reg (fun _ h => h)

/-- Claim C6: constructing the monitor (with prometheus_client importable
and a config instance) first unregisters every collector already present in
the process-wide registry and only then installs the fixed metric set, so
the registry afterwards holds exactly the fixed definitions and none of the
pre-existing ones. -/
theorem monitor_construction_resets_registry (cfg : PrometheusMonitorConfig)
    (reg : List String) :
    (monitorInit true (some cfg) reg).registry = fixedMetricNames := by
  simp [monitorInit, initMetricsRegistry, exposeMetricsEndpoint,
    pmConfigNamespaceAttr, pmConfigPathAttr, unregisterAll_eq_nil]

/-- Claim C9: when prometheus_client is not importable, construction raises
ImproperlyConfigured before touching the registry: nothing is registered,
the registry is left unchanged, and no export endpoint is installed. -/
theorem missing_prometheus_client_aborts
    (pmConfigArg : Option PrometheusMonitorConfig) (reg : List String) :
    (monitorInit false pmConfigArg reg).outcome =
      Except.error InitError.improperlyConfigured ∧
    (monitorInit false pmConfigArg reg).registry = reg ∧
    (monitorInit false pmConfigArg reg).endpointPath = none :=
  ⟨rfl, rfl, rfl⟩

/-- Claim C10: constructing the monitor with the pm_config argument omitted
binds the class object (which has no namespace attribute) as the config, so
metric initialization raises AttributeError: construction never completes
and no export endpoint is installed, hence the documented defaults are never
applied. -/
theorem none_config_never_constructs (reg : List String) :
    (monitorInit true none reg).outcome =
      Except.error InitError.attributeError ∧
    (monitorInit true none reg).endpointPath = none :=
  ⟨rfl, rfl⟩
